import Mathlib

/-!
Verification development for the adaptive site-content discovery and
extraction core of the scrapper repository.  The definitions below are a
shallow embedding of the relevant functions of `seo_scraper.py` and
`advanced_web_scraperv3.py`; each carries a comment naming the source
function and lines it embeds.  Python strings are modelled as `String`
(with character-list operations for the primitive string tests), Python
sets as duplicate-free lists, and the md5 content hash as the hashed text
itself (an injective content key; hash collisions are not modelled).
-/

namespace Seo

/-- Python's substring test `needle in hay`, on character lists.
`hay` is consumed left to right; at each position we test whether
`needle` is a prefix. -/
def strContains (needle : List Char) : List Char → Bool
  | [] => needle.isEmpty
  | c :: rest => needle.isPrefixOf (c :: rest) || strContains needle rest

/-- Python's `url.lower()`, modelled characterwise. -/
def lowerChars (s : String) : List Char := s.data.map Char.toLower

/-- Python's `str.startswith`, modelled as a character-list test. -/
def startsWithStr (s pre : String) : Bool := pre.data.isPrefixOf s.data

/-- `clean_url` (seo_scraper.py:137-142): `url.split('#')[0] if '#' in url
else url`, i.e. the prefix of the URL before the first `'#'`.  The
`except` arm returns the URL unchanged and is unreachable for total
string operations. -/
def clean_url (url : String) : String :=
  if url.data.contains '#' then String.mk (url.data.takeWhile (fun c => c ≠ '#')) else url

/-- `clean_text` (seo_scraper.py:132-135): `re.sub(r'\s+', ' ', text).strip()`,
i.e. maximal whitespace runs collapse to single spaces and outer
whitespace is trimmed.  Implemented by splitting into maximal
non-whitespace words and re-joining with single spaces, which computes
the same string. -/
def wordsAux : List Char → List Char → List (List Char)
  | [], cur => if cur.isEmpty then [] else [cur.reverse]
  | c :: rest, cur =>
    if c.isWhitespace then
      if cur.isEmpty then wordsAux rest [] else cur.reverse :: wordsAux rest []
    else wordsAux rest (c :: cur)

def clean_text (s : String) : String :=
  String.mk (List.intercalate [' '] (wordsAux s.data []))

/-- Document extensions tested by `classify_url` (seo_scraper.py:241). -/
def docExts : List String :=
  [".pdf", ".doc", ".docx", ".xls", ".xlsx", ".ppt", ".pptx"]

/-- Image extensions tested by `classify_url` (seo_scraper.py:245). -/
def imgExts : List String :=
  [".jpg", ".jpeg", ".png", ".gif", ".svg", ".webp"]

/-- Blog/article URL patterns tested by `classify_url` (seo_scraper.py:249-253). -/
def articleKeywords : List String :=
  ["/blog/", "/article/", "/post/", "/news/", "/resources/", "/insights/",
   "/knowledge/", "/case-study", "/white-paper", "/report"]

/-- `classify_url` (seo_scraper.py:235-258).  Each test is Python's
substring containment `ext in url_lower` over the lowercased URL; the
`except` arm returning `'page'` is unreachable for total string
operations. -/
def classify_url (url : String) : String :=
  let u := lowerChars url
  if docExts.any (fun e => strContains e.data u) then "document"
  else if imgExts.any (fun e => strContains e.data u) then "image"
  else if articleKeywords.any (fun p => strContains p.data u) then "article"
  else "page"

/-- The last path/file segment of a URL: the characters after the last
`'/'`. Auxiliary to the reference decision procedure below. -/
def afterLastSlash (l : List Char) : List Char :=
  (l.reverse.takeWhile (fun c => c ≠ '/')).reverse

/-- The URL's file extension: the suffix of the last segment from its last
`'.'` (dot included), or empty when the last segment has no dot.
Auxiliary to the reference decision procedure below. -/
def extOf (l : List Char) : List Char :=
  let seg := afterLastSlash l
  if seg.contains '.' then '.' :: (seg.reverse.takeWhile (fun c => c ≠ '.')).reverse
  else []

/-- The reference decision procedure stated by the spec's words (spec §4.1,
restated in the claim): the kind is decided by the URL's actual file
extension first (document, then image), then by an article keyword
occurring in the URL path, else page.  Defined from the spec's wording,
to be compared with `classify_url` as the source defines it. -/
def classifySpec (url : String) : String :=
  let u := lowerChars url
  let e := String.mk (extOf u)
  if docExts.contains e then "document"
  else if imgExts.contains e then "image"
  else if articleKeywords.any (fun p => strContains p.data u) then "article"
  else "page"

/-- The classification procedure as amended: identical tests in the same
order, but every test — extensions included — is a substring match
anywhere in the lowercased URL, exactly as the source performs it. -/
def classifyAmended (url : String) : String :=
  let u := lowerChars url
  let isDoc := docExts.any (fun e => strContains e.data u)
  let isImg := imgExts.any (fun e => strContains e.data u)
  let isArt := articleKeywords.any (fun p => strContains p.data u)
  if isDoc then "document" else if isImg then "image"
  else if isArt then "article" else "page"

/-- Unwanted URL patterns of `is_unwanted_link` (seo_scraper.py:203-209). -/
def unwantedPatterns : List String :=
  ["/cookie-policy", "/privacy-policy", "/terms-and-conditions",
   "/about-us", "/contact", "/careers", "/sitemap", "/login",
   "/register", "/signup", "/cart", "/checkout", "/account",
   "/wp-admin", "/wp-login", "/feed", "/rss", "/xmlrpc.php",
   "mailto:", "tel:", "javascript:", "#"]

/-- `url.split('#')[0]` (seo_scraper.py:214). -/
def beforeHash (url : String) : String :=
  String.mk (url.data.takeWhile (fun c => c ≠ '#'))

/-- `is_unwanted_link` (seo_scraper.py:201-233).  The Python function keeps a
hidden mutable set in the function attribute `processed_base_urls`; the
embedding threads that set explicitly and returns the (possibly updated)
set alongside the boolean.  The `except` arm returns `True` and is not
reachable for total string operations. -/
def is_unwanted_link (url baseUrl : String) (processedBaseUrls : List String) :
    Bool × List String :=
  if url.data.contains '#' && processedBaseUrls.contains (beforeHash url) then
    (true, processedBaseUrls)
  else
    let isExternal := !(startsWithStr url baseUrl)
    let isUnwanted := unwantedPatterns.any (fun p => strContains p.data (lowerChars url))
    if !isExternal && !isUnwanted && url.data.contains '#' then
      (isExternal || isUnwanted, beforeHash url :: processedBaseUrls)
    else
      (isExternal || isUnwanted, processedBaseUrls)

/-- A content unit as extracted by `extract_content` (seo_scraper.py): the
bracketed tag of the emitted line, the carried text, and — for deduplicated
text units — the content fingerprint (seo_scraper.py:550).  Non-text units
(`[URL]`, `[ERROR]`, `[DOCUMENT]`, `[IMAGE]`) carry no fingerprint. -/
structure ContentUnit where
  tag : String
  text : String
  fp : Option String
deriving DecidableEq, Repr

/-- The content fingerprint (seo_scraper.py:550):
`hashlib.md5(text.encode()).hexdigest()` of the already-normalized text.
The md5 digest is modelled as the text itself — an injective content key;
hash collisions are not modelled. -/
def fingerprint (t : String) : String := t

/-- The deduplicator's check-and-record (spec §4.2 `accept`), exactly the
inlined test of seo_scraper.py:551-552:
`if content_hash not in seen_content: seen_content.add(content_hash)`. -/
def accept (h : String) (seen : List String) : Bool × List String :=
  if seen.contains h then (false, seen) else (true, h :: seen)

/-- The per-element text loop of `extract_content` (seo_scraper.py:546-553):
each candidate element's text is whitespace-normalized, kept only when
longer than 20 characters, fingerprinted, and emitted unless the
fingerprint is already in the call's `seen_content` set.  The element
stream is abstracted to the texts of the qualifying elements (the tag of
the emitted line varies with the element name in the source; a fixed "P"
tag is used here, which no claim depends on).  The `text and` conjunct of
the source guard is subsumed by `len > 20`. -/
def extractTexts : List String → List String → List ContentUnit × List String
  | [], seen => ([], seen)
  | t :: ts, seen =>
    if 20 < (clean_text t).length then
      if (accept (fingerprint (clean_text t)) seen).1 then
        (ContentUnit.mk "P" (clean_text t) (some (fingerprint (clean_text t))) ::
            (extractTexts ts (accept (fingerprint (clean_text t)) seen).2).1,
          (extractTexts ts (accept (fingerprint (clean_text t)) seen).2).2)
      else extractTexts ts seen
    else extractTexts ts seen

/-- Number of units in `l` carrying fingerprint `f`. -/
def countFp (l : List ContentUnit) (f : Option String) : Nat :=
  (l.filter (fun u => u.fp == f)).length

/-- `extract_content` (seo_scraper.py:493-572).  `nav` is the outcome of
`driver.get` / `WebDriverWait` / page parsing: either an exception message
or the page's qualifying text elements (renderer handle, link and
schema.org units are not needed by any claim and are omitted; link units
are never deduplicated in the source).  An exception is caught by the
outer `except` (seo_scraper.py:567-568) and becomes the single `[ERROR]`
unit.  `seen_content` starts empty in every call (seo_scraper.py:512).
The constant per-element test `'text' not in exclude_types` is hoisted
out of the loop. -/
def extract_content (url contentType : String) (excludeTypes : List String)
    (nav : Except String (List String)) : List ContentUnit :=
  match nav with
  | .error e => [ContentUnit.mk "ERROR" ("Failed to extract content: " ++ e) none]
  | .ok texts =>
    if contentType = "document" then [ContentUnit.mk "DOCUMENT" url none]
    else if contentType = "image" then [ContentUnit.mk "IMAGE" url none]
    else if excludeTypes.contains "text" then []
    else (extractTexts texts []).1

/-- The aggregation loop of `scrape_pages` (seo_scraper.py:605-636): every
resource is extracted and, when the extraction returned content, a
`[URL]` marker line followed by that content is appended to the
aggregate.  Extraction workers share no deduplication state, so the
aggregate is the concatenation of the per-resource outputs; completion
order is modelled as submission order. -/
def scrape_pages (excludeTypes : List String)
    (resources : List (String × String × Except String (List String))) :
    List ContentUnit :=
  resources.flatMap (fun r =>
    let c := extract_content r.1 r.2.1 excludeTypes r.2.2
    if c.isEmpty then [] else ContentUnit.mk "URL" r.1 none :: c)

/-- The `content_map` of `discover_site_content` (seo_scraper.py:327-333),
modelled as a function from bucket key to the bucket's URL list. -/
def contentMapInit : String → List String := fun _ => []

/-- One insertion into `content_map` (seo_scraper.py:359 and 414-415): every
insertion is keyed by the result of `classify_url` and stores the cleaned
URL. -/
def contentMapAdd (m : String → List String) (u : String) : String → List String :=
  fun k => if k = classify_url u then clean_url u :: m k else m k

/-- All `content_map` insertions of one discovery run, in discovery order. -/
def runContentMap (urls : List String) : String → List String :=
  urls.foldl contentMapAdd contentMapInit

/-- The element loop over one dynamic-load trigger selector
(seo_scraper.py:425-435): each displayed element is clicked and counted;
reaching the limit breaks out of this inner loop only.  `elems` lists the
`is_displayed()` flag of each element the selector matched. -/
def clickElems (limit : Nat) : List Bool → Nat → Nat
  | [], a => a
  | d :: rest, a =>
    if d then
      let a' := a + 1
      if limit ≤ a' then a' else clickElems limit rest a'
    else clickElems limit rest a

/-- The trigger loop (seo_scraper.py:423-437): the selectors
`.load-more`, `.infinite-scroll`, `.pagination` are processed in order —
with no limit test between selectors. -/
def clickTriggers (limit : Nat) (page : List (List Bool)) (a : Nat) : Nat :=
  page.foldl (fun acc t => clickElems limit t acc) a

/-- The dynamic-discovery `while` loop (seo_scraper.py:391-450) restricted
to its attempt accounting: each iteration runs the trigger loop on the
current page layout and the loop exits when the budget is reached
(seo_scraper.py:439-440); entry requires `dynamic_attempts < dynamic_limit`.
The scroll bookkeeping only ends the loop earlier and is absorbed into
the finite list of per-iteration page layouts. -/
def dynLoop (limit : Nat) : List (List (List Bool)) → Nat → Nat
  | [], a => a
  | page :: rest, a =>
    if a < limit then
      let a' := clickTriggers limit page a
      if limit ≤ a' then a' else dynLoop limit rest a'
    else a

/-- The dynamic-discovery dispatch of `discover_site_content`
(seo_scraper.py:374-458) for a finite limit: a positive limit runs the
dynamic loop, a limit of `0` skips dynamic discovery entirely
("Dynamic content discovery skipped"), performing zero renders and zero
clicks.  Returns the number of successful trigger clicks performed. -/
def discoverDynamicAttempts (dynamicLimit : Nat) (pages : List (List (List Bool))) : Nat :=
  if 0 < dynamicLimit then dynLoop dynamicLimit pages 0 else 0

/-- State of the static-discovery loop of `discover_site_content`
(seo_scraper.py:335-371): the frontier set `to_process`, the visited set
`processed_urls`, and — as instrumentation for the claims — the list of
URLs ever drawn from the frontier, newest first. -/
structure DiscState where
  toProcess : List String
  processed : List String
  dequeuedUrls : List String
deriving Repr

/-- Python `set.add`, on duplicate-free lists. -/
def setAdd (l : List String) (x : String) : List String :=
  if l.contains x then l else x :: l

/-- Python `set.update`, on duplicate-free lists. -/
def setUnion (l : List String) (xs : List String) : List String :=
  xs.foldl setAdd l

/-- One frontier URL processed by the static-discovery loop
(seo_scraper.py:343-371), serialized in completion order: the URL is
drawn from `to_process`, its page links are filtered —
`url.startswith(base_url)`, `clean_url(url) not in processed_urls`,
`not is_unwanted_link(url, base_url)` (seo_scraper.py:362-365) — and
cleaned, the surviving links join `to_process`, and only then is the
processed URL recorded in `processed_urls` (seo_scraper.py:370), exactly
the source ordering.  `is_unwanted_link`'s hidden set never changes and
never affects its result (proved below), so the empty set is passed. -/
def discStep (fetchLinks : String → List String) (baseUrl : String)
    (s : DiscState) : DiscState :=
  match s.toProcess with
  | [] => s
  | u :: rest =>
    let newUrls :=
      ((fetchLinks u).filter (fun l =>
        startsWithStr l baseUrl && !(s.processed.contains (clean_url l)) &&
          !((is_unwanted_link l baseUrl []).1))).map clean_url
    DiscState.mk (setUnion rest newUrls) (setAdd s.processed (clean_url u))
      (u :: s.dequeuedUrls)

/-- The static-discovery `while to_process:` loop (seo_scraper.py:343),
fuel-bounded. -/
def discRun (fetchLinks : String → List String) (baseUrl : String) :
    Nat → DiscState → DiscState
  | 0, s => s
  | Nat.succ fuel, s =>
    match s.toProcess with
    | [] => s
    | _ :: _ => discRun fetchLinks baseUrl fuel (discStep fetchLinks baseUrl s)

end Seo

namespace Adv

/-- A pagination control element as inspected by `PaginationStrategy.execute`
(advanced_web_scraperv3.py:73-99): its text, whether `'active'` is among
its classes, and its `disabled` attribute. -/
structure Button where
  text : String
  isActive : Bool
  isDisabled : Bool
deriving DecidableEq, Repr

/-- The page observables consumed by the three loading strategies: the
elements matched by the pagination selectors, the `is_displayed()` flags
of the elements matched by the load-more selectors, whether a
scroll-to-bottom grew `document.body.scrollHeight`
(advanced_web_scraperv3.py:107-111), and the links
`gather_page_content` yields after a successful advance.  The source's
several CSS selector lists are flattened into one element list each. -/
structure PageState where
  paginationButtons : List Button
  loadMoreDisplayed : List Bool
  heightGrew : Bool
  revealedLinks : List String

/-- Python `str.isdigit()` plus `int(...)` on the digit string
(advanced_web_scraperv3.py:88-90). -/
def parseDigits (s : String) : Option Nat :=
  if !s.data.isEmpty && s.data.all Char.isDigit then
    some (s.data.foldl (fun n c => n * 10 + (c.toNat - 48)) 0)
  else none

/-- `PaginationStrategy.is_applicable` (advanced_web_scraperv3.py:61-71):
some pagination selector matches an element. -/
def paginationApplicable (p : PageState) : Bool := !p.paginationButtons.isEmpty

/-- `PaginationStrategy.execute` (advanced_web_scraperv3.py:73-99): find the
button whose class list contains `'active'`; parse its text with `int(...)`
(raising on a non-digit text, modelled as `.error`); find an enabled
button whose digit text equals current + 1; click it and harvest; in all
fall-through cases return no links. -/
def paginationExecute (p : PageState) : Except String (List String) :=
  if p.paginationButtons.isEmpty then .ok []
  else
    match p.paginationButtons.find? (fun b => b.isActive) with
    | none => .ok []
    | some cur =>
      match parseDigits cur.text with
      | none => .error "invalid literal for int"
      | some n =>
        match p.paginationButtons.find? (fun b => parseDigits b.text == some (n + 1)) with
        | none => .ok []
        | some nb => if nb.isDisabled then .ok [] else .ok p.revealedLinks

/-- `InfiniteScrollStrategy.is_applicable` (advanced_web_scraperv3.py:102-104):
always `True`. -/
def infiniteScrollApplicable (_ : PageState) : Bool := true

/-- `InfiniteScrollStrategy.execute` (advanced_web_scraperv3.py:106-113):
scroll to the bottom and harvest only if the page height grew. -/
def infiniteScrollExecute (p : PageState) : Except String (List String) :=
  .ok (if p.heightGrew then p.revealedLinks else [])

/-- `LoadMoreButtonStrategy.is_applicable` (advanced_web_scraperv3.py:116-127):
some load-more selector matches an element. -/
def loadMoreApplicable (p : PageState) : Bool := !p.loadMoreDisplayed.isEmpty

/-- `LoadMoreButtonStrategy.execute` (advanced_web_scraperv3.py:129-145):
click the first displayed match and harvest; no links otherwise. -/
def loadMoreExecute (p : PageState) : Except String (List String) :=
  if p.loadMoreDisplayed.any (fun d => d) then .ok p.revealedLinks else .ok []

/-- The strategy interface `ContentLoadingStrategy`
(advanced_web_scraperv3.py:53-58). -/
structure Strategy where
  name : String
  isApplicable : PageState → Bool
  execute : PageState → Except String (List String)

def paginationStrategy : Strategy :=
  Strategy.mk "PaginationStrategy" paginationApplicable paginationExecute

def infiniteScrollStrategy : Strategy :=
  Strategy.mk "InfiniteScrollStrategy" infiniteScrollApplicable infiniteScrollExecute

def loadMoreButtonStrategy : Strategy :=
  Strategy.mk "LoadMoreButtonStrategy" loadMoreApplicable loadMoreExecute

/-- `load_more_content` (advanced_web_scraperv3.py:173-188): strategies are
tried in list order; an applicable strategy is executed, and the loop
breaks only when the execution returned links (`if new_links: ... break`);
an execution that raises is recorded as failed and the loop continues.
Returns `list(set(all_links))` (modelled as `dedup`) together with — as
instrumentation — the names of the strategies whose `execute` actually
ran, in order. -/
def load_more_content (p : PageState) : List Strategy → List String × List String
  | [] => ([], [])
  | s :: rest =>
    if s.isApplicable p then
      match s.execute p with
      | .ok newLinks =>
        if newLinks.isEmpty then
          let r := load_more_content p rest
          (r.1, s.name :: r.2)
        else (newLinks.dedup, [s.name])
      | .error _ =>
        let r := load_more_content p rest
        (r.1, s.name :: r.2)
    else load_more_content p rest

/-- The strategy list built in `main` (advanced_web_scraperv3.py:322-329):
pagination, then infinite scroll, then load-more, each subject to its
checkbox (all default `True`). -/
def mainStrategies (usePagination useInfiniteScroll useLoadMore : Bool) : List Strategy :=
  (if usePagination then [paginationStrategy] else []) ++
  (if useInfiniteScroll then [infiniteScrollStrategy] else []) ++
  (if useLoadMore then [loadMoreButtonStrategy] else [])

end Adv

namespace Seo

theorem listContains_iff {α : Type _} [BEq α] [LawfulBEq α] {l : List α} {a : α} :
    l.contains a = true ↔ a ∈ l := List.elem_iff

theorem strContains_of_mem {c : Char} {l : List Char} (h : c ∈ l) :
    strContains [c] l = true := by
  induction l with
  | nil => cases h
  | cons a t ih =>
    rcases List.mem_cons.mp h with rfl | h'
    · simp [strContains, List.isPrefixOf]
    · simp [strContains, ih h']

theorem takeWhile_append_ne {c : Char} (l₁ l₂ : List Char) (h : ∀ x ∈ l₁, x ≠ c) :
    (l₁ ++ c :: l₂).takeWhile (fun x => x ≠ c) = l₁ := by
  induction l₁ with
  | nil => simp
  | cons a t ih =>
    have ha : a ≠ c := h a (List.mem_cons_self a t)
    have ih' := ih (fun x hx => h x (List.mem_cons_of_mem a hx))
    rw [List.cons_append, List.takeWhile_cons, if_pos (by simpa using ha), ih']

theorem clean_url_strips_fragment (s t : String) (h : ∀ x ∈ s.data, x ≠ '#') :
    clean_url (s ++ "#" ++ t) = s := by
  have hd : (s ++ "#" ++ t).data = s.data ++ '#' :: t.data := by
    simp [String.data_append]
  unfold clean_url
  rw [hd]
  have hc : (s.data ++ '#' :: t.data).contains '#' = true :=
    listContains_iff.mpr (List.mem_append_right _ (List.mem_cons_self _ _))
  rw [if_pos hc, takeWhile_append_ne s.data t.data h]

theorem clean_url_id_of_no_hash (u : String) (h : ∀ x ∈ u.data, x ≠ '#') :
    clean_url u = u := by
  have hc : u.data.contains '#' = false := by
    apply Bool.eq_false_iff.mpr
    intro hcc
    exact h '#' (listContains_iff.mp hcc) rfl
  unfold clean_url
  rw [hc]
  simp

theorem accept_pos {h : String} {s : List String} (hm : h ∉ s) :
    accept h s = (true, h :: s) := by simp [accept, hm]

theorem accept_neg {h : String} {s : List String} (hm : h ∈ s) :
    accept h s = (false, s) := by simp [accept, hm]

theorem countFp_cons (u : ContentUnit) (l : List ContentUnit) (f : Option String) :
    countFp (u :: l) f = (if u.fp == f then 1 else 0) + countFp l f := by
  by_cases h : (u.fp == f) = true
  · simp [countFp, List.filter_cons, h, Nat.add_comm]
  · simp [countFp, List.filter_cons, h]

theorem extractTexts_fst_skip {t : String} {ts seen : List String}
    (hl : ¬ 20 < (clean_text t).length) :
    (extractTexts (t :: ts) seen).1 = (extractTexts ts seen).1 := by
  simp [extractTexts, hl]

theorem extractTexts_fst_dup {t : String} {ts seen : List String}
    (hl : 20 < (clean_text t).length) (hm : fingerprint (clean_text t) ∈ seen) :
    (extractTexts (t :: ts) seen).1 = (extractTexts ts seen).1 := by
  simp [extractTexts, hl, accept_neg hm]

theorem extractTexts_fst_new {t : String} {ts seen : List String}
    (hl : 20 < (clean_text t).length) (hm : fingerprint (clean_text t) ∉ seen) :
    (extractTexts (t :: ts) seen).1 =
      ContentUnit.mk "P" (clean_text t) (some (fingerprint (clean_text t))) ::
        (extractTexts ts (fingerprint (clean_text t) :: seen)).1 := by
  simp [extractTexts, hl, accept_pos hm]

/-- Once a fingerprint is in the call's `seen_content` set, no later
submission of that fingerprint in the same call emits a unit. -/
theorem extractTexts_seen_zero :
    ∀ (ts seen : List String) (h : String), h ∈ seen →
      countFp (extractTexts ts seen).1 (some h) = 0 := by
  intro ts
  induction ts with
  | nil => intro seen h _; simp [extractTexts, countFp]
  | cons t ts ih =>
    intro seen h hm
    by_cases hl : 20 < (clean_text t).length
    · by_cases hc : fingerprint (clean_text t) ∈ seen
      · rw [extractTexts_fst_dup hl hc]
        exact ih seen h hm
      · have hne : fingerprint (clean_text t) ≠ h := fun e => hc (e ▸ hm)
        rw [extractTexts_fst_new hl hc, countFp_cons]
        have hfp : ((ContentUnit.mk "P" (clean_text t)
            (some (fingerprint (clean_text t)))).fp == some h) = false := by
          simp [hne]
        rw [hfp]
        simp only [Bool.false_eq_true, if_false, Nat.zero_add]
        exact ih (fingerprint (clean_text t) :: seen) h (List.mem_cons_of_mem _ hm)
    · rw [extractTexts_fst_skip hl]
      exact ih seen h hm

/-- Within one `extract_content` call, at most one emitted unit carries any
given fingerprint. -/
theorem extractTexts_le_one :
    ∀ (ts seen : List String) (h : String),
      countFp (extractTexts ts seen).1 (some h) ≤ 1 := by
  intro ts
  induction ts with
  | nil => intro seen h; simp [extractTexts, countFp]
  | cons t ts ih =>
    intro seen h
    by_cases hl : 20 < (clean_text t).length
    · by_cases hc : fingerprint (clean_text t) ∈ seen
      · rw [extractTexts_fst_dup hl hc]
        exact ih seen h
      · rw [extractTexts_fst_new hl hc, countFp_cons]
        by_cases he : fingerprint (clean_text t) = h
        · have hz : countFp (extractTexts ts
              (fingerprint (clean_text t) :: seen)).1 (some h) = 0 :=
            extractTexts_seen_zero ts _ h (by rw [he]; exact List.mem_cons_self _ _)
          rw [hz]
          split <;> simp
        · have hfp : ((ContentUnit.mk "P" (clean_text t)
              (some (fingerprint (clean_text t)))).fp == some h) = false := by
            simp [he]
          rw [hfp]
          simp only [Bool.false_eq_true, if_false, Nat.zero_add]
          exact ih _ h
    · rw [extractTexts_fst_skip hl]
      exact ih seen h

theorem countFp_append (l₁ l₂ : List ContentUnit) (f : Option String) :
    countFp (l₁ ++ l₂) f = countFp l₁ f + countFp l₂ f := by
  simp [countFp, List.filter_append]

theorem unwanted_of_hash {url : String} (h : url.data.contains '#' = true) :
    unwantedPatterns.any (fun p => strContains p.data (lowerChars url)) = true := by
  have hm : '#' ∈ url.data := listContains_iff.mp h
  have hml : '#' ∈ lowerChars url := by
    have hlow : Char.toLower '#' = '#' := by decide
    simpa [lowerChars, hlow] using List.mem_map_of_mem Char.toLower hm
  apply List.any_eq_true.mpr
  exact ⟨"#", by decide, strContains_of_mem hml⟩

theorem classify_url_cases (u : String) :
    classify_url u = "document" ∨ classify_url u = "image" ∨
      classify_url u = "article" ∨ classify_url u = "page" := by
  simp only [classify_url]
  split
  · exact Or.inl rfl
  split
  · exact Or.inr (Or.inl rfl)
  split
  · exact Or.inr (Or.inr (Or.inl rfl))
  · exact Or.inr (Or.inr (Or.inr rfl))

theorem classify_url_ne_api (u : String) :
    classify_url u ≠ "api_endpoint" ∧ classify_url u ≠ "api_endpoints" := by
  rcases classify_url_cases u with h | h | h | h <;> rw [h] <;>
    exact ⟨by decide, by decide⟩

theorem runContentMap_aux (urls : List String) :
    ∀ m : String → List String, m "api_endpoints" = [] →
      (urls.foldl contentMapAdd m) "api_endpoints" = [] := by
  induction urls with
  | nil => intro m hm; simpa using hm
  | cons u urls ih =>
    intro m hm
    simp only [List.foldl_cons]
    apply ih
    have hne : "api_endpoints" ≠ classify_url u :=
      fun e => (classify_url_ne_api u).2 e.symm
    simp [contentMapAdd, hne, hm]

/-- The invariant of the static-discovery loop relating `processed_urls` to
the dequeued URLs: `processed_urls` is duplicate-free and holds exactly
the canonical (cleaned) forms of the URLs ever drawn from the frontier. -/
def DiscInv (s : DiscState) : Prop :=
  s.processed.Nodup ∧
    (∀ u ∈ s.processed, u ∈ s.dequeuedUrls.map clean_url) ∧
    (∀ u ∈ s.dequeuedUrls.map clean_url, u ∈ s.processed)

instance (s : DiscState) : Decidable (DiscInv s) := by
  unfold DiscInv
  infer_instance

theorem discStep_inv (fetchLinks : String → List String) (baseUrl : String)
    (s : DiscState) (hs : DiscInv s) : DiscInv (discStep fetchLinks baseUrl s) := by
  obtain ⟨hn, hf, hb⟩ := hs
  cases hto : s.toProcess with
  | nil => rw [discStep, hto]; exact ⟨hn, hf, hb⟩
  | cons u rest =>
    rw [discStep, hto]
    by_cases hc : clean_url u ∈ s.processed
    · have hset : setAdd s.processed (clean_url u) = s.processed := by
        simp [setAdd, hc]
      refine ⟨by simpa [hset] using hn, ?_, ?_⟩
      · intro v hv
        simp only [hset] at hv
        simp only [List.map_cons]
        exact List.mem_cons_of_mem _ (hf v hv)
      · intro v hv
        simp only [hset]
        simp only [List.map_cons, List.mem_cons] at hv
        rcases hv with rfl | hv
        · exact hc
        · exact hb v hv
    · have hset : setAdd s.processed (clean_url u) = clean_url u :: s.processed := by
        simp [setAdd, hc]
      refine ⟨?_, ?_, ?_⟩
      · simp only [hset]
        exact List.nodup_cons.mpr ⟨hc, hn⟩
      · intro v hv
        simp only [hset, List.mem_cons] at hv
        simp only [List.map_cons, List.mem_cons]
        rcases hv with rfl | hv
        · exact Or.inl rfl
        · exact Or.inr (hf v hv)
      · intro v hv
        simp only [List.map_cons, List.mem_cons] at hv
        simp only [hset, List.mem_cons]
        rcases hv with rfl | hv
        · exact Or.inl rfl
        · exact Or.inr (hb v hv)

theorem discRun_inv (fetchLinks : String → List String) (baseUrl : String) :
    ∀ (fuel : Nat) (s : DiscState), DiscInv s →
      DiscInv (discRun fetchLinks baseUrl fuel s) := by
  intro fuel
  induction fuel with
  | zero => intro s hs; exact hs
  | succ n ih =>
    intro s hs
    rw [discRun]
    cases hto : s.toProcess with
    | nil => exact hs
    | cons u rest => exact ih _ (discStep_inv fetchLinks baseUrl s hs)

theorem discInv_card {s : DiscState} (hs : DiscInv s) :
    s.processed.length = ((s.dequeuedUrls.map clean_url).dedup).length := by
  obtain ⟨hn, hf, hb⟩ := hs
  have hfs : s.processed.toFinset = (s.dequeuedUrls.map clean_url).toFinset := by
    apply Finset.ext
    intro a
    simp only [List.mem_toFinset]
    exact ⟨hf a, hb a⟩
  calc s.processed.length
      = s.processed.toFinset.card := (List.toFinset_card_of_nodup hn).symm
    _ = (s.dequeuedUrls.map clean_url).toFinset.card := by rw [hfs]
    _ = ((s.dequeuedUrls.map clean_url).dedup).length := List.card_toFinset _

/-- A paragraph long enough to pass the 20-character filter, used by the
concrete refutation instances below. -/
def dupParagraph : String :=
  "this paragraph certainly has more than twenty characters"

/-- A session of two resources whose rendered pages carry the identical
paragraph. -/
def dupSession : List (String × String × Except String (List String)) :=
  [("http://e.com/a", "page", Except.ok [dupParagraph]),
   ("http://e.com/b", "page", Except.ok [dupParagraph])]

/-- A second long paragraph, submitted by two concurrent workers in the
concurrency refutation instance. -/
def dupParagraphB : String :=
  "another paragraph that is comfortably over twenty characters"

/-- Fetch oracle of the self-link scenario: every page links to the base
URL itself. -/
def selfLinkFetch : String → List String := fun _ => ["http://e.com"]

/-- Initial static-discovery state seeded with the base URL
(seo_scraper.py:335-336). -/
def selfLinkStart : DiscState := DiscState.mk ["http://e.com"] [] []

end Seo

namespace Adv

/-- Scenario B page: one visible enabled "page 2" pagination control, no
load-more elements, no active page marker, no growth on scroll. -/
def scenarioBPage : PageState := PageState.mk [Button.mk "2" false false] [] false []

/-- A page on which pagination advances successfully: active page 1, an
enabled page 2 control, and links revealed by the click. -/
def paginationSuccessPage : PageState :=
  PageState.mk [Button.mk "1" true false, Button.mk "2" false false] [] false
    ["http://e.com/p2"]

end Adv

/-- C1 (counterexample): the claim that a text submitted twice within one
discovery session — including from two different resources — yields only
one ContentUnit is false: `seen_content` is created afresh in every
`extract_content` call, so a session of two resources carrying the same
paragraph aggregates two units with that fingerprint, not one. -/
theorem C1_counterexample :
    ¬ (Seo.countFp (Seo.scrape_pages [] Seo.dupSession)
        (some (Seo.fingerprint (Seo.clean_text Seo.dupParagraph))) = 1) ∧
    Seo.countFp (Seo.scrape_pages [] Seo.dupSession)
        (some (Seo.fingerprint (Seo.clean_text Seo.dupParagraph))) = 2 := by
  decide

/-- C1 (amended): deduplication is per resource, not per session.  Within
one `extract_content` call, `accept` returns true exactly when the
fingerprint is not yet in the call's seen set and false on every later
call after recording; a fingerprint already in the seen set never emits a
unit, and any fingerprint is emitted at most once per call. -/
theorem C1_dedup_per_resource :
    (∀ (h : String) (s : List String), (Seo.accept h s).1 = !(s.contains h)) ∧
    (∀ (h : String) (s : List String),
      (Seo.accept h ((Seo.accept h s).2)).1 = false) ∧
    (∀ (ts seen : List String) (h : String), h ∈ seen →
      Seo.countFp (Seo.extractTexts ts seen).1 (some h) = 0) ∧
    (∀ (ts : List String) (h : String),
      Seo.countFp (Seo.extractTexts ts []).1 (some h) ≤ 1) := by
  refine ⟨?_, ?_, Seo.extractTexts_seen_zero, fun ts h => Seo.extractTexts_le_one ts [] h⟩
  · intro h s
    by_cases hm : h ∈ s
    · rw [Seo.accept_neg hm, Seo.listContains_iff.mpr hm]
      rfl
    · have hc : s.contains h = false :=
        Bool.eq_false_iff.mpr (fun hcc => hm (Seo.listContains_iff.mp hcc))
      rw [Seo.accept_pos hm, hc]
      rfl
  · intro h s
    by_cases hm : h ∈ s
    · rw [Seo.accept_neg hm, Seo.accept_neg hm]
    · rw [Seo.accept_pos hm, Seo.accept_neg (List.mem_cons_self h s)]

/-- Witness for C1's amended theorem: a fingerprint already in the seen set
is dropped, at a concrete input. -/
theorem C1_dedup_per_resource_witness :
    Seo.countFp (Seo.extractTexts [Seo.dupParagraph]
        [Seo.fingerprint (Seo.clean_text Seo.dupParagraph)]).1
      (some (Seo.fingerprint (Seo.clean_text Seo.dupParagraph))) = 0 :=
  C1_dedup_per_resource.2.2.1 [Seo.dupParagraph]
    [Seo.fingerprint (Seo.clean_text Seo.dupParagraph)]
    (Seo.fingerprint (Seo.clean_text Seo.dupParagraph))
    (List.mem_cons_self _ _)

/-- C2 (counterexample): with all strategies enabled, `main` builds the
order pagination, infinite-scroll, load-more — not pagination >
load-more > infinite-scroll — and on the Scenario B page (a visible
enabled "page 2" control, no other dynamic markers) the Pagination
strategy runs, yields no links, and the Infinite Scroll strategy is then
invoked in the same iteration, refuting "only the first applicable
strategy is applied" and "Infinite Scroll is never invoked". -/
theorem C2_counterexample :
    Adv.mainStrategies true true true =
      [Adv.paginationStrategy, Adv.infiniteScrollStrategy, Adv.loadMoreButtonStrategy] ∧
    Adv.paginationStrategy.isApplicable Adv.scenarioBPage = true ∧
    Adv.loadMoreButtonStrategy.isApplicable Adv.scenarioBPage = false ∧
    (Adv.load_more_content Adv.scenarioBPage (Adv.mainStrategies true true true)).2 =
      ["PaginationStrategy", "InfiniteScrollStrategy"] ∧
    "InfiniteScrollStrategy" ∈
      (Adv.load_more_content Adv.scenarioBPage (Adv.mainStrategies true true true)).2 :=
  ⟨rfl, by decide, by decide, by decide, by decide⟩

/-- C2 (amended): strategies are evaluated in the fixed order pagination >
infinite-scroll > load-more-trigger, and an iteration stops at the first
applicable strategy whose execution returns at least one link; in
particular, when pagination is applicable and its execution yields links,
no other strategy is invoked in that iteration. -/
theorem C2_first_success_stops :
    ∀ (p : Adv.PageState) (links : List String),
      Adv.paginationStrategy.isApplicable p = true →
      Adv.paginationStrategy.execute p = Except.ok links →
      links ≠ [] →
      Adv.load_more_content p (Adv.mainStrategies true true true) =
        (links.dedup, ["PaginationStrategy"]) := by
  intro p links ha he hne
  have hmain : Adv.mainStrategies true true true =
      [Adv.paginationStrategy, Adv.infiniteScrollStrategy, Adv.loadMoreButtonStrategy] := rfl
  have hemp : links.isEmpty = false := by
    cases links with
    | nil => exact absurd rfl hne
    | cons a l => rfl
  rw [hmain]
  simp only [Adv.load_more_content, ha, he, if_true, hemp]
  simp [Adv.paginationStrategy]

/-- Witness for C2's amended theorem: on a page with an active page-1 and
an enabled page-2 control, pagination succeeds and is the only strategy
invoked. -/
theorem C2_first_success_stops_witness :
    Adv.load_more_content Adv.paginationSuccessPage (Adv.mainStrategies true true true) =
      (["http://e.com/p2"].dedup, ["PaginationStrategy"]) :=
  C2_first_success_stops Adv.paginationSuccessPage ["http://e.com/p2"]
    rfl rfl (by decide)

/-- C3 (counterexample): normalization does not remove a trailing slash —
`clean_url` leaves `"http://e.com/a/"` unchanged, so two URLs differing
only by a trailing slash do not normalize to the same canonical URL. -/
theorem C3_counterexample :
    Seo.clean_url "http://e.com/a/" = "http://e.com/a/" ∧
    Seo.clean_url "http://e.com/a/" ≠ Seo.clean_url "http://e.com/a" := by
  decide

/-- C3 (amended): `clean_url` strips the URL fragment — everything from the
first `'#'` on — and nothing else: a URL without a fragment, trailing
slash included, is returned unchanged. -/
theorem C3_fragment_only :
    (∀ s t : String, (∀ c ∈ s.data, c ≠ '#') →
      Seo.clean_url (s ++ "#" ++ t) = s) ∧
    (∀ u : String, (∀ c ∈ u.data, c ≠ '#') → Seo.clean_url u = u) :=
  ⟨Seo.clean_url_strips_fragment, Seo.clean_url_id_of_no_hash⟩

/-- Witness for C3's amended theorem at concrete URLs: a fragment is
stripped and a trailing slash survives. -/
theorem C3_fragment_only_witness :
    Seo.clean_url ("http://e.com/a" ++ "#" ++ "sec") = "http://e.com/a" ∧
    Seo.clean_url "http://e.com/a/" = "http://e.com/a/" :=
  ⟨C3_fragment_only.1 "http://e.com/a" "sec" (by decide),
   C3_fragment_only.2 "http://e.com/a/" (by decide)⟩

/-- C4: evaluation of the dynamic-harvest attempt accounting at the failing
input.  With `dynamic_limit = 1` and one displayed element under each of
the three trigger selectors, the code performs 3 successful clicks — the
"limit reached" break exits only the inner element loop, so the remaining
selectors still click once each — exceeding the budget of 1.  The
`dynamic_limit = 0` branch does skip dynamic harvest entirely. -/
theorem C4_budget_overrun :
    Seo.discoverDynamicAttempts 1 [[[true], [true], [true]]] = 3 ∧
    ¬ (Seo.discoverDynamicAttempts 1 [[[true], [true], [true]]] ≤ 1) ∧
    (∀ pages, Seo.discoverDynamicAttempts 0 pages = 0) :=
  ⟨by decide, by decide, fun _ => rfl⟩

/-- C5: an error raised while extracting a resource is converted into
exactly one `[ERROR]` content unit carrying the failure description, the
extraction returns normally (the error does not propagate), and the
session aggregation is compositional over the resource list, so the
remaining resources are still processed. -/
theorem C5_error_contained :
    (∀ (url ct : String) (ex : List String) (e : String),
      Seo.extract_content url ct ex (Except.error e) =
        [Seo.ContentUnit.mk "ERROR" ("Failed to extract content: " ++ e) none]) ∧
    (∀ (ex : List String) (url ct e : String),
      Seo.scrape_pages ex [(url, ct, Except.error e)] =
        [Seo.ContentUnit.mk "URL" url none,
         Seo.ContentUnit.mk "ERROR" ("Failed to extract content: " ++ e) none]) ∧
    (∀ (ex : List String) (rs₁ rs₂ : List (String × String × Except String (List String))),
      Seo.scrape_pages ex (rs₁ ++ rs₂) =
        Seo.scrape_pages ex rs₁ ++ Seo.scrape_pages ex rs₂) := by
  refine ⟨fun url ct ex e => rfl, fun ex url ct e => rfl, fun ex rs₁ rs₂ => ?_⟩
  simp [Seo.scrape_pages]

/-- C6 (counterexample): `classify_url` does not implement the
extension-based reference procedure: `"http://a.com/x.pdf.html"` has file
extension `.html`, so the reference procedure yields `page`, but the code
finds the substring `".pdf"` anywhere in the URL and yields `document`. -/
theorem C6_counterexample :
    Seo.classify_url "http://a.com/x.pdf.html" = "document" ∧
    Seo.classifySpec "http://a.com/x.pdf.html" = "page" ∧
    Seo.classify_url "http://a.com/x.pdf.html" ≠
      Seo.classifySpec "http://a.com/x.pdf.html" := by
  decide

/-- C6 (amended): `classify_url` is a pure function equal to the
substring-based procedure — document/image extension strings and article
keywords are matched as substrings anywhere in the lowercased URL, in
that order — and always returns one of the four kinds. -/
theorem C6_substring_classification :
    ∀ u : String,
      Seo.classify_url u = Seo.classifyAmended u ∧
      (Seo.classify_url u = "document" ∨ Seo.classify_url u = "image" ∨
        Seo.classify_url u = "article" ∨ Seo.classify_url u = "page") :=
  fun u => ⟨rfl, Seo.classify_url_cases u⟩

/-- C7 (counterexample): the frontier can contain a URL already visited.
Seeding the static-discovery loop with the base URL whose page links to
itself, one step leaves the base URL both in `processed_urls` and back in
`to_process`: the enqueue filter consults `processed_urls` before the
dequeued URL is recorded there (seo_scraper.py:362-370). -/
theorem C7_counterexample :
    "http://e.com" ∈
      (Seo.discStep Seo.selfLinkFetch "http://e.com" Seo.selfLinkStart).processed ∧
    "http://e.com" ∈
      (Seo.discStep Seo.selfLinkFetch "http://e.com" Seo.selfLinkStart).toProcess := by
  decide

/-- C7 (amended): although the frontier may transiently contain visited
URLs, no URL is visited twice: in every state reachable from a state
satisfying the invariant — in particular from the seeded initial state —
`processed_urls` is duplicate-free and its size equals the number of
distinct canonical URLs ever dequeued from the frontier. -/
theorem C7_distinct_dequeues :
    ∀ (fetchLinks : String → List String) (baseUrl : String) (fuel : Nat)
      (s : Seo.DiscState), Seo.DiscInv s →
      Seo.DiscInv (Seo.discRun fetchLinks baseUrl fuel s) ∧
      (Seo.discRun fetchLinks baseUrl fuel s).processed.length =
        (((Seo.discRun fetchLinks baseUrl fuel s).dequeuedUrls.map
            Seo.clean_url).dedup).length :=
  fun f b fuel s hs =>
    ⟨Seo.discRun_inv f b fuel s hs,
     Seo.discInv_card (Seo.discRun_inv f b fuel s hs)⟩

/-- Witness for C7's amended theorem: the seeded self-link session
satisfies the invariant, and after running, the visited count equals the
distinct dequeued count. -/
theorem C7_distinct_dequeues_witness :
    Seo.DiscInv Seo.selfLinkStart ∧
    (Seo.discRun Seo.selfLinkFetch "http://e.com" 3 Seo.selfLinkStart).processed.length =
      (((Seo.discRun Seo.selfLinkFetch "http://e.com" 3 Seo.selfLinkStart).dequeuedUrls.map
          Seo.clean_url).dedup).length :=
  ⟨by decide,
   (C7_distinct_dequeues Seo.selfLinkFetch "http://e.com" 3 Seo.selfLinkStart
      (by decide)).2⟩

/-- C8: `is_unwanted_link` is deterministic and effectively side-effect
free: its boolean result does not depend on the hidden
`processed_base_urls` state, and no call changes that state — the lone
store branch requires the URL both to contain `'#'` and not to match any
unwanted pattern, while `'#'` is itself an unwanted pattern.  The
function is total by construction (the source classifies unparseable
input as unwanted via its `except` arm). -/
theorem C8_scope_deterministic :
    ∀ (url baseUrl : String) (s₁ s₂ : List String),
      (Seo.is_unwanted_link url baseUrl s₁).1 =
        (Seo.is_unwanted_link url baseUrl s₂).1 ∧
      (Seo.is_unwanted_link url baseUrl s₁).2 = s₁ := by
  intro url b s₁ s₂
  by_cases hcm : '#' ∈ url.data
  · have hu := Seo.unwanted_of_hash (Seo.listContains_iff.mpr hcm)
    have r : ∀ s : List String,
        Seo.is_unwanted_link url b s = (true, s) := by
      intro s
      by_cases hm : Seo.beforeHash url ∈ s
      · simp [Seo.is_unwanted_link, hcm, hm]
      · simp [Seo.is_unwanted_link, hcm, hm, hu]
    rw [r s₁, r s₂]
    exact ⟨rfl, rfl⟩
  · constructor
    · simp [Seo.is_unwanted_link, hcm]
    · simp [Seo.is_unwanted_link, hcm]

/-- C9 (counterexample): two extraction workers submitting the identical
normalized paragraph for two different resources produce two ContentUnits
with that fingerprint in the combined aggregate, not one: the
deduplicator's seen set is local to each `extract_content` call and no
state is shared between workers. -/
theorem C9_counterexample :
    ¬ (Seo.countFp
        (Seo.extract_content "http://e.com/w1" "page" [] (Except.ok [Seo.dupParagraphB]) ++
          Seo.extract_content "http://e.com/w2" "page" [] (Except.ok [Seo.dupParagraphB]))
        (some (Seo.fingerprint (Seo.clean_text Seo.dupParagraphB))) = 1) ∧
    Seo.countFp
        (Seo.extract_content "http://e.com/w1" "page" [] (Except.ok [Seo.dupParagraphB]) ++
          Seo.extract_content "http://e.com/w2" "page" [] (Except.ok [Seo.dupParagraphB]))
        (some (Seo.fingerprint (Seo.clean_text Seo.dupParagraphB))) = 2 := by
  decide

/-- C9 (amended): extraction workers share no deduplication state, so the
aggregate count of any fingerprint is the sum of the per-worker counts —
independent of interleaving — and each worker contributes any fingerprint
at most once. -/
theorem C9_no_shared_dedup :
    ∀ (ts₁ ts₂ : List String) (h : String),
      Seo.countFp ((Seo.extractTexts ts₁ []).1 ++ (Seo.extractTexts ts₂ []).1)
          (some h) =
        Seo.countFp (Seo.extractTexts ts₁ []).1 (some h) +
          Seo.countFp (Seo.extractTexts ts₂ []).1 (some h) ∧
      Seo.countFp (Seo.extractTexts ts₁ []).1 (some h) ≤ 1 ∧
      Seo.countFp (Seo.extractTexts ts₂ []).1 (some h) ≤ 1 :=
  fun ts₁ ts₂ h =>
    ⟨Seo.countFp_append _ _ _,
     Seo.extractTexts_le_one ts₁ [] h,
     Seo.extractTexts_le_one ts₂ [] h⟩

/-- C10: `classify_url` never returns the `api_endpoint` kind (nor the
bucket key `api_endpoints`), and therefore the `api_endpoints` bucket of
the session's `content_map` — whose every insertion is keyed by a
`classify_url` result — is empty at the end of every discovery run. -/
theorem C10_no_api_endpoint :
    (∀ url : String, Seo.classify_url url ≠ "api_endpoint" ∧
      Seo.classify_url url ≠ "api_endpoints") ∧
    (∀ urls : List String, Seo.runContentMap urls "api_endpoints" = []) :=
  ⟨Seo.classify_url_ne_api,
   fun urls => Seo.runContentMap_aux urls Seo.contentMapInit rfl⟩
